/-
Verification of the claim-verification pipeline of UniteSocial/Unite-AI
(`src/services/base_llm_service.py`), shallowly embedded in Lean 4.

The embedding follows the Python source closely:
  * Python strings are Lean `String`s (ASCII inputs; `str.lower`, `str.strip`,
    `str.split()` and the `in` substring test are modelled on ASCII data).
  * Python dicts holding search results are the `Result` structure with the
    keys the code reads (`title`, `url`, `snippet`).
  * `json.loads` (Python stdlib, strict JSON) is modelled by `pyJsonLoads`,
    a fuel-based recursive-descent JSON reader returning `Option JValue`;
    `none` models `json.JSONDecodeError`.
  * Exceptions are modelled by `Option`/`Except`; the one modelled failure
    point of the orchestrator is the LLM call (`Except Unit String`), which
    in the source is the only raising step reachable inside the `try` block
    (the search provider never throws to the caller).
-/
import Mathlib

set_option maxHeartbeats 1600000
set_option maxRecDepth 40000

namespace UniteAI

/-! ### Python string primitives (ASCII model) -/

/-- Characters Python's `str.strip()` / `str.split()` treat as whitespace
(ASCII fragment). -/
def pyIsSpace (c : Char) : Bool :=
  c = ' ' || c = '\t' || c = '\n' || c = '\r' || c = '\x0b' || c = '\x0c'

/-- Boolean test that `p` begins the list `l`. -/
def leadsOf : List Char → List Char → Bool
  | [], _ => true
  | _ :: _, [] => false
  | a :: as, b :: bs => a == b && leadsOf as bs

/-- Boolean test that `needle` occurs contiguously inside `hay`. -/
def hasSub (needle : List Char) : List Char → Bool
  | [] => leadsOf needle []
  | c :: t => leadsOf needle (c :: t) || hasSub needle t

/-- Python's `needle in hay` substring test. -/
def strContains (hay needle : String) : Bool := hasSub needle.toList hay.toList

/-- Python `str.strip()` on ASCII text. -/
def pyStrip (s : String) : String :=
  ⟨((s.toList.dropWhile pyIsSpace).reverse.dropWhile pyIsSpace).reverse⟩

/-- Python `str.lower()` on ASCII text. -/
def pyLower (s : String) : String := ⟨s.toList.map Char.toLower⟩

/-- Worker for `pySplit`: accumulate the current word (reversed). -/
def pySplitAux : List Char → List Char → List String
  | [], acc => if acc.isEmpty then [] else [⟨acc.reverse⟩]
  | c :: rest, acc =>
    if pyIsSpace c then
      if acc.isEmpty then pySplitAux rest []
      else ⟨acc.reverse⟩ :: pySplitAux rest []
    else pySplitAux rest (c :: acc)

/-- Python `str.split()` (no argument): split on whitespace runs, dropping
empty pieces. -/
def pySplit (s : String) : List String := pySplitAux s.toList []

/-- `pre` begins `s` (Python `str.startswith`). -/
def startsWithL (s pre : String) : Bool := leadsOf pre.toList s.toList

/-- Concatenation of a list of strings. -/
def joinStrs (l : List String) : String := ⟨(l.map String.toList).flatten⟩

/-- Python slicing `s[:n]`. -/
def strTake (s : String) (n : Nat) : String := ⟨s.toList.take n⟩

/-- First-occurrence deduplication, tracking already-seen elements. -/
def dedupFirstAux : List String → List String → List String
  | [], _ => []
  | w :: ws, seen =>
    if seen.contains w then dedupFirstAux ws seen
    else w :: dedupFirstAux ws (w :: seen)

/-- First-occurrence deduplication of a word list; models building a Python
`set` when only the resulting membership / distinct count matters. -/
def dedupFirst (l : List String) : List String := dedupFirstAux l []

/-! ### Data model: one web search result (`{title, url, snippet}` dict) -/

structure Result where
  title : String
  url : String
  snippet : String
deriving DecidableEq, Repr

/-! ### Query Expander (`_extract_all_search_queries`)

The proper-noun pattern of the source is the regex
`\b[A-Z][a-z]+(?:\s+[A-Z][a-z]+)*\b` applied with `re.findall`; the year
pattern is `\b(2024|2025|2026)\b`.  Both are embedded as explicit scanners
reproducing the regex engine's leftmost, non-overlapping semantics
(ASCII word characters). -/

def isUpperAZ (c : Char) : Bool := 'A' ≤ c && c ≤ 'Z'

def isLowerAZ (c : Char) : Bool := 'a' ≤ c && c ≤ 'z'

/-- Regex `\w` (ASCII model): letters, digits, underscore. -/
def isWordCharRe (c : Char) : Bool := c.isAlphanum || c = '_'

/-- Regex `\b` holds before the remaining input `cs` when `cs` is empty or
starts with a non-word character (the previous character being a word
character is tracked by the callers). -/
def boundaryOk : List Char → Bool
  | [] => true
  | c :: _ => !isWordCharRe c

/-- Match `[A-Z][a-z]+` at the head of the input. -/
def matchNounHead : List Char → Option (List Char × List Char)
  | [] => none
  | c :: rest =>
    if isUpperAZ c then
      let low := rest.takeWhile isLowerAZ
      if low.isEmpty then none else some (c :: low, rest.drop low.length)
    else none

/-- Greedily collect `(?:\s+[A-Z][a-z]+)*` groups. -/
def collectGroups : Nat → List Char → List (List Char) × List Char
  | 0, cs => ([], cs)
  | fuel + 1, cs =>
    let sp := cs.takeWhile pyIsSpace
    if sp.isEmpty then ([], cs)
    else
      match matchNounHead (cs.drop sp.length) with
      | none => ([], cs)
      | some (head, rest) =>
        let (gs, rest') := collectGroups fuel rest
        ((sp ++ head) :: gs, rest')

/-- Try the full proper-noun pattern at the current position (which must
already satisfy the leading `\b`).  If the trailing `\b` fails after the
greedy run of groups, the regex backtracks by dropping the last group
(after which the next character is whitespace, so `\b` holds); with no
group to drop the match fails. -/
def matchNounFrom (cs : List Char) : Option (List Char × List Char) :=
  match matchNounHead cs with
  | none => none
  | some (head, rest) =>
    let (gs, rest') := collectGroups (rest.length + 1) rest
    if boundaryOk rest' then some (head ++ gs.flatten, rest')
    else
      match gs.reverse with
      | [] => none
      | lastG :: revInit => some (head ++ revInit.reverse.flatten, lastG ++ rest')

/-- Scanner for `re.findall(r'\b[A-Z][a-z]+(?:\s+[A-Z][a-z]+)*\b', s)`:
`bOk` records whether `\b` holds at the current position. -/
def findNounsAux : Nat → Bool → List Char → List String
  | 0, _, _ => []
  | _ + 1, _, [] => []
  | fuel + 1, bOk, c :: rest =>
    match (if bOk then matchNounFrom (c :: rest) else none) with
    | some (m, rest') => String.mk m :: findNounsAux fuel false rest'
    | none => findNounsAux fuel (!isWordCharRe c) rest

def findProperNouns (s : String) : List String :=
  findNounsAux (s.toList.length + 1) true s.toList

/-- Scanner for `re.findall(r'\b(2024|2025|2026)\b', s)`. -/
def findYearsAux : Nat → Bool → List Char → List String
  | 0, _, _ => []
  | _ + 1, _, [] => []
  | fuel + 1, bOk, c :: rest =>
    match (if bOk then
            match ["2024", "2025", "2026"].find? (fun y => leadsOf y.toList (c :: rest)) with
            | some y =>
              let rest' := (c :: rest).drop 4
              if boundaryOk rest' then some (y, rest') else none
            | none => none
          else none) with
    | some (y, rest') => y :: findYearsAux fuel false rest'
    | none => findYearsAux fuel (!isWordCharRe c) rest

def findYears (s : String) : List String :=
  findYearsAux (s.toList.length + 1) true s.toList

/-- Final step of `_extract_all_search_queries`: deduplicate by exact string
equality keeping first occurrences, and drop queries of length ≤ 2 (a query
is recorded as seen only when it is kept, as in the source). -/
def dedupKeepLong : List String → List String → List String
  | [], _ => []
  | q :: qs, seen =>
    if !seen.contains q && 2 < q.length then q :: dedupKeepLong qs (q :: seen)
    else dedupKeepLong qs seen

/-- `BaseLLMService._extract_all_search_queries`. -/
def extractAllSearchQueries (claim lang : String) : List String :=
  let claimLower := pyLower claim
  let properNouns := findProperNouns claim
  let nounQueries := properNouns.foldl (fun acc name =>
    if 3 < name.length then
      acc ++ [name] ++
      (if lang = "de" then
        (if ["bundeskanzler", "kanzler"].any (fun t => strContains claimLower t) then
          [name ++ " Bundeskanzler Deutschland", "Bundeskanzler Deutschland aktuell"] else []) ++
        (if ["buch", "autobiografie", "biografie"].any (fun t => strContains claimLower t) then
          [name ++ " Buch Autobiografie", name ++ " Buch 2024 2025"] else []) ++
        (if strContains (pyLower name) "merkel" then
          ["Angela Merkel Autobiografie Freiheit"] else [])
      else
        (if strContains claimLower "chancellor" then
          [name ++ " Chancellor Germany", "Germany Chancellor current"] else []) ++
        (if ["book", "autobiography", "biography"].any (fun t => strContains claimLower t) then
          [name ++ " book autobiography"] else []))
    else acc) []
  let withMerz := nounQueries ++
    (if lang = "de" then
      (if strContains claimLower "merz" then
        ["Friedrich Merz Bundeskanzler", "Deutschland Bundeskanzler 2025"] else [])
    else
      (if strContains claimLower "merz" then
        ["Friedrich Merz Chancellor", "Germany Chancellor 2025"] else []))
  let withDates := withMerz ++ (findYears claim).map (fun d =>
    if lang = "de" then "Deutschland Politik " ++ d else "Germany politics " ++ d)
  dedupKeepLong withDates []

/-- The full executed query list of `_perform_web_searches` (lines 177-178):
the derived queries with the literal claim inserted at position 0. -/
def searchQueriesFor (claim lang : String) : List String :=
  claim :: extractAllSearchQueries claim lang

/-! ### Evidence Ranker (`_filter_search_results`) -/

def MAX_SEARCH_QUERIES : Nat := 8
def MAX_FILTERED_RESULTS : Nat := 5
def MIN_SNIPPET_LENGTH : Nat := 50
def MIN_URL_LENGTH : Nat := 5
def MIN_WORD_LENGTH_FOR_MATCHING : Nat := 3
def MIN_RELEVANCE_SCORE : Nat := 2
def AUTO_MAP_FALLBACK_SOURCES : Nat := 2

/-- The integer relevance score computed in the loop body of
`_filter_search_results`: a snippet-length bonus plus 2 per distinct claim
word (longer than 3 characters) contained in the lowercased snippet and 3
per distinct such word contained in the lowercased title. -/
def relevanceScore (claim : String) (r : Result) : Nat :=
  let claimWords := dedupFirst (pySplit (pyLower claim))
  let lenBonus := if 100 ≤ r.snippet.length then 2
                  else if 50 ≤ r.snippet.length then 1 else 0
  let snippetLower := pyLower r.snippet
  let titleLower := pyLower r.title
  let matchingWords := (claimWords.filter (fun w =>
    MIN_WORD_LENGTH_FOR_MATCHING < w.length && strContains snippetLower w)).length
  let titleMatches := (claimWords.filter (fun w =>
    MIN_WORD_LENGTH_FOR_MATCHING < w.length && strContains titleLower w)).length
  lenBonus + 2 * matchingWords + 3 * titleMatches

/-- The two length gates plus the `score == 0` rejection of
`_filter_search_results` (the loop body's three `continue`s). -/
def keepResult (claim : String) (r : Result) : Bool :=
  MIN_SNIPPET_LENGTH ≤ (pyStrip r.snippet).length &&
  (r.url ≠ "" && MIN_URL_LENGTH ≤ (pyStrip r.url).length) &&
  relevanceScore claim r ≠ 0

/-- Stable insertion of `x` into a list sorted by descending score: `x` goes
after every element whose score is at least its own. -/
def insertByScoreDesc (claim : String) (x : Result) : List Result → List Result
  | [] => [x]
  | y :: ys =>
    if relevanceScore claim y < relevanceScore claim x then x :: y :: ys
    else y :: insertByScoreDesc claim x ys

/-- Python's stable `filtered.sort(key=lambda x: score, reverse=True)`,
realized as a stable insertion sort (a stable sort by a key is extensionally
unique; stability is proved below). -/
def sortByScoreDesc (claim : String) (l : List Result) : List Result :=
  l.foldl (fun acc x => insertByScoreDesc claim x acc) []

/-- `BaseLLMService._filter_search_results`.  The `_relevance_score` scratch
key is popped before returning in the source and therefore never appears in
the embedded `Result`. -/
def filterSearchResults (results : List Result) (claim : String) (maxResults : Nat) :
    List Result :=
  (sortByScoreDesc claim (results.filter (keepResult claim))).take maxResults

/-! ### Evidence Gatherer (`_perform_web_searches`) -/

/-- URL deduplication keeping first occurrences (lines 197-202). -/
def dedupByUrlAux : List Result → List String → List Result
  | [], _ => []
  | r :: rs, seen =>
    if seen.contains r.url then dedupByUrlAux rs seen
    else r :: dedupByUrlAux rs (r.url :: seen)

def dedupByUrl (l : List Result) : List Result := dedupByUrlAux l []

/-- `BaseLLMService._perform_web_searches`.  The search provider is the
oracle `searchFn` (its `count`/`language` arguments are fixed per call in the
source and folded into the oracle); per the source the provider never throws,
a failed query simply contributes no results, and the pacing delay has no
effect on the value computed. -/
def performWebSearches (webSearchEnabled : Bool) (searchFn : String → List Result)
    (claim lang : String) : List Result :=
  if webSearchEnabled then
    let searchQueries := searchQueriesFor claim lang
    let allSearchResults := ((searchQueries.take MAX_SEARCH_QUERIES).map searchFn).flatten
    filterSearchResults (dedupByUrl allSearchResults) claim MAX_FILTERED_RESULTS
  else []

/-! ### `json.loads` (Python stdlib, strict JSON)

The verdict parser leans on Python's `json.loads`; it is modelled here as a
fuel-based recursive-descent reader.  Numbers are kept as their raw literal
text (the claims never compute with them), duplicate object keys follow
Python's last-value-wins `dict` semantics through `jget`, and the
non-standard constants `NaN` / `Infinity` / `-Infinity` accepted by
`json.loads` are kept as raw number literals. -/

inductive JValue where
  | null
  | bool (b : Bool)
  | num (raw : String)
  | str (s : String)
  | arr (xs : List JValue)
  | obj (fields : List (String × JValue))
deriving Repr

/-- JSON whitespace (exactly the four characters `json.loads` skips). -/
def jsonWs (c : Char) : Bool := c = ' ' || c = '\t' || c = '\n' || c = '\r'

def skipWsL (cs : List Char) : List Char := cs.dropWhile jsonWs

def hexDigitVal (c : Char) : Option Nat :=
  if '0' ≤ c && c ≤ '9' then some (c.toNat - 48)
  else if 'a' ≤ c && c ≤ 'f' then some (c.toNat - 87)
  else if 'A' ≤ c && c ≤ 'F' then some (c.toNat - 55)
  else none

/-- Parse a JSON string body (the opening quote already consumed); returns
the decoded characters and the input after the closing quote.  Literal
control characters are rejected, as in strict-mode `json.loads`. -/
def parseStringBody : List Char → Option (List Char × List Char)
  | [] => none
  | '"' :: rest => some ([], rest)
  | '\\' :: '"' :: rest => (parseStringBody rest).map (fun (s, r) => ('"' :: s, r))
  | '\\' :: '\\' :: rest => (parseStringBody rest).map (fun (s, r) => ('\\' :: s, r))
  | '\\' :: '/' :: rest => (parseStringBody rest).map (fun (s, r) => ('/' :: s, r))
  | '\\' :: 'b' :: rest => (parseStringBody rest).map (fun (s, r) => ('\x08' :: s, r))
  | '\\' :: 'f' :: rest => (parseStringBody rest).map (fun (s, r) => ('\x0c' :: s, r))
  | '\\' :: 'n' :: rest => (parseStringBody rest).map (fun (s, r) => ('\n' :: s, r))
  | '\\' :: 'r' :: rest => (parseStringBody rest).map (fun (s, r) => ('\r' :: s, r))
  | '\\' :: 't' :: rest => (parseStringBody rest).map (fun (s, r) => ('\t' :: s, r))
  | '\\' :: 'u' :: h1 :: h2 :: h3 :: h4 :: rest =>
    (match hexDigitVal h1, hexDigitVal h2, hexDigitVal h3, hexDigitVal h4 with
     | some a, some b, some c, some d =>
       (parseStringBody rest).map
         (fun (s, r) => (Char.ofNat (((a * 16 + b) * 16 + c) * 16 + d) :: s, r))
     | _, _, _, _ => none)
  | '\\' :: _ => none
  | c :: rest =>
    if c.toNat < 0x20 then none
    else (parseStringBody rest).map (fun (s, r) => (c :: s, r))

/-- Optional fraction part `(\.[0-9]+)?`. -/
def parseFrac : List Char → Option (List Char × List Char)
  | '.' :: t =>
    let fs := t.takeWhile Char.isDigit
    if fs.isEmpty then none else some ('.' :: fs, t.drop fs.length)
  | cs => some ([], cs)

/-- Optional exponent part `([eE][+-]?[0-9]+)?`. -/
def parseExp : List Char → Option (List Char × List Char)
  | c :: t =>
    if c = 'e' || c = 'E' then
      let (sg, t1) : List Char × List Char :=
        match t with
        | s :: t' => if s = '+' || s = '-' then ([s], t') else ([], t)
        | [] => ([], t)
      let ds := t1.takeWhile Char.isDigit
      if ds.isEmpty then none else some (c :: (sg ++ ds), t1.drop ds.length)
    else some ([], c :: t)
  | [] => some ([], [])

/-- Strict JSON number grammar `-?(0|[1-9][0-9]*)(\.[0-9]+)?([eE][+-]?[0-9]+)?`,
returning the raw literal. -/
def parseNumber (cs : List Char) : Option (String × List Char) :=
  let (sign, cs1) : List Char × List Char :=
    match cs with
    | '-' :: t => (['-'], t)
    | _ => ([], cs)
  match cs1 with
  | '0' :: t =>
    (parseFrac t).bind (fun (f, r1) =>
      (parseExp r1).map (fun (e, r2) => (String.mk (sign ++ '0' :: (f ++ e)), r2)))
  | c :: t =>
    if '1' ≤ c && c ≤ '9' then
      let ds := t.takeWhile Char.isDigit
      (parseFrac (t.drop ds.length)).bind (fun (f, r1) =>
        (parseExp r1).map (fun (e, r2) =>
          (String.mk (sign ++ c :: (ds ++ f ++ e)), r2)))
    else none
  | [] => none

mutual

def parseVal : Nat → List Char → Option (JValue × List Char)
  | 0, _ => none
  | fuel + 1, cs =>
    match cs with
    | [] => none
    | c :: rest =>
      if c = 'n' then
        if leadsOf ['u', 'l', 'l'] rest then some (.null, rest.drop 3) else none
      else if c = 't' then
        if leadsOf ['r', 'u', 'e'] rest then some (.bool true, rest.drop 3) else none
      else if c = 'f' then
        if leadsOf ['a', 'l', 's', 'e'] rest then some (.bool false, rest.drop 4) else none
      else if c = 'N' then
        if leadsOf ['a', 'N'] rest then some (.num "NaN", rest.drop 2) else none
      else if c = 'I' then
        if leadsOf ['n', 'f', 'i', 'n', 'i', 't', 'y'] rest then
          some (.num "Infinity", rest.drop 7) else none
      else if c = '"' then
        (parseStringBody rest).map (fun (s, r) => (.str (String.mk s), r))
      else if c = '{' then
        (match skipWsL rest with
         | '}' :: r2 => some (.obj [], r2)
         | r1 => (parseObjItems fuel r1).map (fun (fs, r) => (.obj fs, r)))
      else if c = '[' then
        (match skipWsL rest with
         | ']' :: r2 => some (.arr [], r2)
         | r1 => (parseArrItems fuel r1).map (fun (xs, r) => (.arr xs, r)))
      else if c = '-' then
        if leadsOf ['I', 'n', 'f', 'i', 'n', 'i', 't', 'y'] rest then
          some (.num "-Infinity", rest.drop 8)
        else (parseNumber (c :: rest)).map (fun (n, r) => (.num n, r))
      else if c.isDigit then
        (parseNumber (c :: rest)).map (fun (n, r) => (.num n, r))
      else none

def parseObjItems : Nat → List Char → Option (List (String × JValue) × List Char)
  | 0, _ => none
  | fuel + 1, cs =>
    match cs with
    | '"' :: rest =>
      (match parseStringBody rest with
       | none => none
       | some (k, r1) =>
         match skipWsL r1 with
         | ':' :: r2 =>
           (match parseVal fuel (skipWsL r2) with
            | none => none
            | some (v, r3) =>
              match skipWsL r3 with
              | ',' :: r4 =>
                (parseObjItems fuel (skipWsL r4)).map
                  (fun (fs, r) => ((String.mk k, v) :: fs, r))
              | '}' :: r4 => some ([(String.mk k, v)], r4)
              | _ => none)
         | _ => none)
    | _ => none

def parseArrItems : Nat → List Char → Option (List JValue × List Char)
  | 0, _ => none
  | fuel + 1, cs =>
    match parseVal fuel cs with
    | none => none
    | some (v, r1) =>
      match skipWsL r1 with
      | ',' :: r2 => (parseArrItems fuel (skipWsL r2)).map (fun (xs, r) => (v :: xs, r))
      | ']' :: r2 => some ([v], r2)
      | _ => none

end

/-- Model of Python `json.loads`: parse one value surrounded by optional
whitespace, requiring the whole input to be consumed; `none` models
`json.JSONDecodeError`. -/
def pyJsonLoads (s : String) : Option JValue :=
  match parseVal (s.toList.length * 2 + 16) (skipWsL s.toList) with
  | some (v, rest) => if (skipWsL rest).isEmpty then some v else none
  | none => none

/-! ### Verdict Parser (`_clean_json_response`, brace extraction,
`_repair_json_strings`, `_parse_veracity_response`) -/

/-- One pass of `re.sub(r'^```[a-z]*\s*', '', s, flags=re.MULTILINE)`:
at every line start, a fence marker, its lowercase language tag and the
following whitespace are removed (the whitespace may span newlines, and the
next scan position is a line start exactly when the last removed character
was a newline). -/
def subLeadingFenceAux : Nat → Bool → List Char → List Char
  | 0, _, cs => cs
  | _ + 1, _, [] => []
  | fuel + 1, lineStart, c :: rest =>
    if lineStart && leadsOf ['`', '`', '`'] (c :: rest) then
      let r1 := (c :: rest).drop 3
      let low := r1.takeWhile isLowerAZ
      let r2 := r1.drop low.length
      let sp := r2.takeWhile pyIsSpace
      let r3 := r2.drop sp.length
      subLeadingFenceAux fuel (sp.getLast? == some '\n') r3
    else c :: subLeadingFenceAux fuel (c = '\n') rest

def lastIdxOf (c : Char) (l : List Char) : Option Nat :=
  match l.reverse.findIdx? (· = c) with
  | some k => some (l.length - 1 - k)
  | none => none

/-- Try `\s*```\s*$` (MULTILINE) at the current position: a maximal
whitespace run, the fence, then whitespace up to a position where `$` holds
(end of input, or just before the last newline of the trailing whitespace
run — the greedy `\s*` backtracks to the rightmost such position). -/
def matchTrailFence (cs : List Char) : Option (List Char) :=
  let sp := cs.takeWhile pyIsSpace
  let r1 := cs.drop sp.length
  if leadsOf ['`', '`', '`'] r1 then
    let r2 := r1.drop 3
    let run := r2.takeWhile pyIsSpace
    let tl := r2.drop run.length
    if tl.isEmpty then some tl
    else
      match lastIdxOf '\n' run with
      | some m => some (run.drop m ++ tl)
      | none => none
  else none

/-- `re.sub(r'\s*```\s*$', '', s, flags=re.MULTILINE)` as a left-to-right
non-overlapping scan. -/
def subTrailingFenceAux : Nat → List Char → List Char
  | 0, cs => cs
  | _ + 1, [] => []
  | fuel + 1, c :: rest =>
    match matchTrailFence (c :: rest) with
    | some rest' => subTrailingFenceAux fuel rest'
    | none => c :: subTrailingFenceAux fuel rest

/-- `BaseLLMService._clean_json_response`. -/
def cleanJsonResponse (s : String) : String :=
  let cleaned := pyStrip s
  if startsWithL cleaned "```" then
    let l1 := subLeadingFenceAux (cleaned.toList.length + 1) true cleaned.toList
    let l2 := subTrailingFenceAux (l1.length + 1) l1
    pyStrip ⟨l2⟩
  else cleaned

/-- The brace-balancing loop of `_parse_veracity_response` (lines 456-478),
started at the first `{`: returns the length of the balanced span when brace
depth first returns to zero outside a quoted string. -/
def braceScan : List Char → Nat → Bool → Bool → Nat → Option Nat
  | [], _, _, _, _ => none
  | c :: rest, bc, inS, esc, i =>
    if esc then braceScan rest bc inS false (i + 1)
    else if c = '\\' then braceScan rest bc inS true (i + 1)
    else if c = '"' then braceScan rest bc (!inS) false (i + 1)
    else if !inS && c = '{' then braceScan rest (bc + 1) inS false (i + 1)
    else if !inS && c = '}' then
      if bc = 1 then some (i + 1) else braceScan rest (bc - 1) inS false (i + 1)
    else braceScan rest bc inS false (i + 1)

def firstIdxOf (c : Char) (l : List Char) : Option Nat := l.findIdx? (· = c)

/-- JSON extraction from cleaned text (lines 453-484): slice the balanced
span from the first `{`; if balancing never succeeds, fall back to slicing
from the first `{` to the last `}`; with no `{` the text is left unchanged. -/
def braceExtract (cleaned : String) : String :=
  let cs := cleaned.toList
  match firstIdxOf '{' cs with
  | none => cleaned
  | some fb =>
    match braceScan (cs.drop fb) 0 false false 0 with
    | some len => ⟨(cs.drop fb).take len⟩
    | none =>
      match lastIdxOf '}' cs with
      | some lb => if fb < lb then ⟨(cs.drop fb).take (lb + 1 - fb)⟩ else cleaned
      | none => cleaned

/-- Emitted elements that count as whitespace in the repair lookback
(the source tests `result[j] in ' \t\n\r'`, a substring test on the emitted
element, so the two-character element `\"` is never whitespace). -/
def wsElem (e : String) : Bool := e = " " || e = "\t" || e = "\n" || e = "\r"

/-- The lookback of `_repair_json_strings`: up to four emitted elements
ending at the last non-whitespace one; `none` when every emitted element is
whitespace (the source then leaves `is_value` False). -/
def lookbackOf (result : List String) : Option String :=
  match result.reverse.dropWhile wsElem with
  | [] => none
  | rs => some (joinStrs (rs.take 4).reverse)

/-- The character loop of `_repair_json_strings`; `result` is the list of
emitted elements in order (a repaired quote is emitted as the single
two-character element `\"`, exactly as the source appends `'\\"'`). -/
def repairAux : List Char → List String → Bool → Bool → List String
  | [], result, _, _ => result
  | c :: rest, result, inS, esc =>
    if esc then repairAux rest (result ++ [String.singleton c]) inS false
    else if c = '\\' then repairAux rest (result ++ [String.singleton c]) inS true
    else if c = '"' then
      let isValue :=
        match lookbackOf result with
        | none => false
        | some lb => lb.toList.contains ':' || startsWithL (pyStrip lb) ","
      if inS && isValue then repairAux rest (result ++ ["\\\""]) inS false
      else repairAux rest (result ++ ["\""]) (!inS) false
    else repairAux rest (result ++ [String.singleton c]) inS false

/-- `BaseLLMService._repair_json_strings`. -/
def repairJsonStrings (s : String) : String :=
  joinStrs (repairAux s.toList [] false false)

/-! ### Field extraction and Source Reconciler -/

/-- A normalized source dict `{title, url, snippet}`; the values are JSON
values because the source copies whatever `s.get(...)` returns. -/
structure SourceJ where
  title : JValue
  url : JValue
  snippet : JValue
deriving Repr

/-- The verdict 4-tuple `(status, justification, verification_method,
sources)` as returned by `_parse_veracity_response`. -/
def Verdict := JValue × JValue × JValue × List SourceJ

/-- Python `dict.get` for an object parsed from JSON with possibly repeated
keys: the last occurrence wins. -/
def jget (fields : List (String × JValue)) (k : String) : Option JValue :=
  (fields.reverse.find? (fun p => p.1 == k)).map (·.2)

/-- Whether a number literal denotes zero (its mantissa digits are all 0). -/
def numIsZero (raw : String) : Bool :=
  let mantissa := raw.toList.takeWhile (fun c => c ≠ 'e' && c ≠ 'E')
  let digits := mantissa.filter Char.isDigit
  !digits.isEmpty && digits.all (· = '0')

/-- Python truthiness of a JSON-decoded value. -/
def truthy : JValue → Bool
  | .null => false
  | .bool b => b
  | .num raw => !numIsZero raw
  | .str s => s ≠ ""
  | .arr xs => !xs.isEmpty
  | .obj fs => !fs.isEmpty

/-- The per-result normalization of `_auto_map_sources_from_results`:
title, url, and the snippet truncated to 200 characters. -/
def autoMapNormalize (r : Result) : SourceJ :=
  ⟨.str r.title, .str r.url, .str (strTake r.snippet 200)⟩

/-- The keyword-overlap pass of `_auto_map_sources_from_results`: keep the
gathered results whose lowercased snippet or title contains at least
`MIN_RELEVANCE_SCORE` distinct justification words longer than 4
characters. -/
def autoMapMatched (justification : String) (cur : List Result) : List SourceJ :=
  let justificationWords :=
    dedupFirst ((pySplit (pyLower justification)).filter (fun w => 4 < w.length))
  cur.filterMap (fun r =>
    let snippetLower := pyLower r.snippet
    let titleLower := pyLower r.title
    let relevance := (justificationWords.filter (fun w =>
      strContains snippetLower w || strContains titleLower w)).length
    if MIN_RELEVANCE_SCORE ≤ relevance then some (autoMapNormalize r) else none)

/-- `BaseLLMService._auto_map_sources_from_results`: keyword-matched results,
or the first `AUTO_MAP_FALLBACK_SOURCES` gathered results when nothing
matches; empty when no evidence was gathered. -/
def autoMapSourcesFromResults (justification : String) (cur : List Result) :
    List SourceJ :=
  if cur.isEmpty then []
  else if (autoMapMatched justification cur).isEmpty then
    (cur.take AUTO_MAP_FALLBACK_SOURCES).map autoMapNormalize
  else autoMapMatched justification cur

def validStatuses : List String :=
  ["Factually Correct", "Untruth", "Misleading", "Unverifiable"]

/-- Lines 523-526: a status that is not one of the four canonical strings is
replaced by `Unverifiable`. -/
def coerceStatus : JValue → JValue
  | .str s => if validStatuses.contains s then .str s else .str "Unverifiable"
  | _ => .str "Unverifiable"

/-- Lines 506-517: the model-reported `sources` must be a list; each entry
must be a dict with a truthy `url` and is normalized to
`{title, url, snippet}` with empty-string defaults. -/
def normalizeModelSources : JValue → List SourceJ
  | .arr xs => xs.filterMap (fun s =>
      match s with
      | .obj sfs =>
        if truthy ((jget sfs "url").getD .null) then
          some ⟨(jget sfs "title").getD (.str ""),
                (jget sfs "url").getD (.str ""),
                (jget sfs "snippet").getD (.str "")⟩
        else none
      | _ => none)
  | _ => []

/-- The value returned at line 532 when processing the parsed data raises
(`data` not a dict, or a non-string justification hitting `.lower()` during
auto-mapping). -/
def errorProcessingVerdict : Verdict :=
  (.str "Unverifiable", .str "Error processing analysis", .str "Parse error", [])

/-- The hard-failure value of line 498, returned when all three JSON
recovery strategies fail. -/
def parseErrorVerdict : Verdict :=
  (.str "Unverifiable", .str "Invalid JSON response from analysis", .str "Parse error", [])

/-- Lines 500-532 of `_parse_veracity_response`: field extraction from the
parsed object, auto-mapping when the model reported no usable source and
evidence was gathered, and status coercion.  A non-dict `data` or a
non-string justification reaching `justification.lower()` raises in the
source and is caught at line 530. -/
def processParsedData (cur : List Result) (data : JValue) : Verdict :=
  match data with
  | .obj fs =>
    let status := (jget fs "status").getD (.str "Unverifiable")
    let justification := (jget fs "justification").getD (.str "No analysis available")
    let verificationMethod := (jget fs "verification_method").getD (.str "Web search")
    let sources := normalizeModelSources ((jget fs "sources").getD (.arr []))
    if sources.isEmpty && !cur.isEmpty then
      match justification with
      | .str j =>
        (coerceStatus status, justification, verificationMethod,
         autoMapSourcesFromResults j cur)
      | _ => errorProcessingVerdict
    else (coerceStatus status, justification, verificationMethod, sources)
  | _ => errorProcessingVerdict

/-- `BaseLLMService._parse_veracity_response`: direct parse, then
brace-balanced extraction of the cleaned text, then string repair; the
hard-failure default when all three fail.  `cur` is the request-scoped
`_current_search_results` buffer. -/
def parseVeracityResponse (cur : List Result) (responseText : String) : Verdict :=
  match pyJsonLoads responseText with
  | some data => processParsedData cur data
  | none =>
    let cleaned := braceExtract (cleanJsonResponse responseText)
    match pyJsonLoads cleaned with
    | some data => processParsedData cur data
    | none =>
      match pyJsonLoads (repairJsonStrings cleaned) with
      | some data => processParsedData cur data
      | none => parseErrorVerdict

/-! ### Context Builder and Verification Orchestrator -/

/-- `BaseLLMService._sanitize_text`: of the five `replace` calls in the
source, the first three replace a plain `"` by itself (no-ops); the
guillemets `»` and `«` are replaced by `"`. -/
def sanitizeText (text : String) : String :=
  ⟨text.toList.map (fun c => if c = '»' || c = '«' then '"' else c)⟩

/-- `BaseLLMService._build_search_context`: the rendered context string and
the new value of the `_current_search_results` buffer (set to the results
when non-empty, cleared otherwise). -/
def buildSearchContext (searchResults : List Result) (lang : String) :
    String × List Result :=
  if !searchResults.isEmpty then
    let formattedResults := (searchResults.enumFrom 1).map (fun (i, r) =>
      "[SOURCE " ++ toString i ++ "] Title: " ++ sanitizeText r.title ++
      "\nURL: " ++ r.url ++ "\nSnippet: " ++ sanitizeText r.snippet)
    let ctx := "\n\n=== WEB SEARCH RESULTS ===\n" ++
      String.intercalate "\n\n" formattedResults ++
      (if lang = "de" then
        "\n\n[OK] Die obigen Web-Suchergebnisse sind deine EINZIGE Informationsquelle."
      else
        "\n\n[OK] The above web search results are your ONLY source of information.")
    (ctx, searchResults)
  else
    ((if lang = "de" then
        "\n\n[NONE] KEINE WEB-SUCHERGEBNISSE GEFUNDEN\n\nKeine Informationen verfuegbar. Fuer ueberpruefbare Fakten bedeutet dies wahrscheinlich: FALSCH."
      else
        "\n\n[NONE] NO WEB SEARCH RESULTS FOUND\n\nNo information available. For verifiable facts, this likely means: FALSE."),
     [])

/-- `_get_default_veracity_analysis` extended with the empty source list the
caller appends on both default paths of `analyze_veracity`. -/
def defaultVeracityVerdict : Verdict :=
  (.str "Unverifiable", .str "Analysis not available", .str "Default method used", [])

/-- `BaseLLMService.analyze_veracity` as a state transformer on the
`_current_search_results` buffer.  `searchFn` is the search-provider oracle
(it never throws), `modelResponse` the outcome of `_make_api_call` — the one
step inside the `try` block that can raise (`Except.error`).  Returns the
verdict together with the buffer value after the call. -/
def analyzeVeracity (enabled webSearchEnabled : Bool)
    (searchFn : String → List Result) (modelResponse : Except Unit String)
    (claim lang : String) (st : List Result) : Verdict × List Result :=
  if !enabled then (defaultVeracityVerdict, st)
  else
    let gathered := performWebSearches webSearchEnabled searchFn claim lang
    let st1 := (buildSearchContext gathered lang).2
    match modelResponse with
    | .error _ => (defaultVeracityVerdict, st1)
    | .ok response => (parseVeracityResponse st1 response, [])

/-! ## Concrete inputs used by counterexamples and witnesses -/

/-- The spec's C3 example response, with the `...` of the spec completed to
the remaining verdict fields: the justification value contains an unescaped
interior quotation mark. -/
def c3input : String :=
  "\x7b\"status\":\"Untruth\",\"justification\":\"He said \"no\" publicly\",\"verification_method\":\"Web search\",\"sources\":[]\x7d"

/-- A model response reporting a source whose url was never gathered. -/
def c1fab : String :=
  "\x7b\"status\":\"Untruth\",\"justification\":\"j\",\"sources\":[\x7b\"url\":\"http://fake.example\"\x7d]\x7d"

/-- A gathered evidence item for the C1 witness. -/
def c1item : Result := ⟨"t", "http://real.example", "s"⟩

/-- An item passing both length gates whose title and snippet share no claim
word: 50 `z`s as snippet, 5-character url. -/
def c2item : Result :=
  ⟨"", "https", "zzzzzzzzzzzzzzzzzzzzzzzzzzzzzzzzzzzzzzzzzzzzzzzzzz"⟩

/-- A well-formed model response with a non-default status and no sources. -/
def c5resp : String :=
  "\x7b\"status\":\"Untruth\",\"justification\":\"J\",\"verification_method\":\"M\",\"sources\":[]\x7d"

/-- A search result that survives ranking for the claim `"Wall fell"`. -/
def c6item : Result :=
  ⟨"Berlin Wall", "http://example.com/wall", "the wall fell the wall fell the wall fell the wall fell"⟩

/-- A gathered evidence item for the C9 witness. -/
def c9item : Result := ⟨"t9", "http://nine.example", "s9"⟩

/-- A search result that survives ranking for the claim `"Wall fell"`
(C8 witness). -/
def c8item : Result :=
  ⟨"Wall news", "http://example.com/c8", "reports say the wall fell and the wall fell again today"⟩

/-! ## Claims -/

/-- C1 (counterexample): with zero gathered evidence
(`_current_search_results = []`), a model response reporting a source with a
fabricated url yields a non-empty sources list — the parser keeps
model-reported sources without checking them against the gathered evidence,
so the claim as stated is false. -/
theorem c1_fabricated_source_kept :
    (parseVeracityResponse [] c1fab).2.2.2 =
      [⟨JValue.str "", JValue.str "http://fake.example", JValue.str ""⟩] ∧
    (parseVeracityResponse [] c1fab).2.2.2 ≠ [] := by
  refine ⟨rfl, ?_⟩
  rw [show (parseVeracityResponse [] c1fab).2.2.2 =
    [⟨JValue.str "", JValue.str "http://fake.example", JValue.str ""⟩] from rfl]
  simp

/-- C1 (amended): the no-fabricated-citations invariant holds for the
reconciliation fallback: every source produced by
`_auto_map_sources_from_results` carries the url of some gathered evidence
item (and with zero gathered evidence the reconciler returns nothing);
model-reported sources, however, are kept verbatim whenever they contain a
url. -/
theorem c1_reconciled_sources_from_evidence (justification : String)
    (cur : List Result) (s : SourceJ)
    (hs : s ∈ autoMapSourcesFromResults justification cur) :
    ∃ r ∈ cur, s.url = JValue.str r.url := by
  unfold autoMapSourcesFromResults at hs
  by_cases hc : cur.isEmpty
  · simp [hc] at hs
  · simp only [hc, if_false, Bool.false_eq_true] at hs
    by_cases hm : (autoMapMatched justification cur).isEmpty
    · simp only [hm, if_true] at hs
      obtain ⟨r, hr, hrs⟩ := List.mem_map.mp hs
      exact ⟨r, List.take_subset _ _ hr, by rw [← hrs]; rfl⟩
    · simp only [hm, if_false, Bool.false_eq_true] at hs
      unfold autoMapMatched at hs
      obtain ⟨r, hr, hrs⟩ := List.mem_filterMap.mp hs
      refine ⟨r, hr, ?_⟩
      simp only at hrs
      split at hrs
      · obtain rfl : autoMapNormalize r = s := Option.some.inj hrs
        rfl
      · exact absurd hrs (by simp)

theorem c1_reconciled_sources_witness :
    ∃ r ∈ [c1item], (autoMapNormalize c1item).url = JValue.str r.url :=
  c1_reconciled_sources_from_evidence "" [c1item] (autoMapNormalize c1item)
    (by rw [show autoMapSourcesFromResults "" [c1item] = [autoMapNormalize c1item] from rfl]
        exact List.mem_singleton.mpr rfl)

/-- C2: an item passing both length gates but sharing no claim word with
title or snippet is NOT rejected — the snippet-length bonus makes its score
1, so the `score == 0` rejection (whose intent, per the `skipped_no_match`
counter, is to drop exactly such items) can never fire on a gate-passing
item, and the item is returned. -/
theorem c2_zero_match_item_kept :
    filterSearchResults [c2item] "Berlin wall fell" 5 = [c2item] ∧
    relevanceScore "Berlin wall fell" c2item = 1 :=
  ⟨rfl, rfl⟩

/-- C3 (counterexample): on the spec's unescaped-quote example the repair
pass leaves the string unchanged (the interior quote follows `said `, not a
colon or comma, so the value-position lookback never fires), every strategy
fails, and the returned justification is the hard-failure string — which
does not contain `no`. -/
theorem c3_unescaped_quote_not_repaired :
    (parseVeracityResponse [] c3input).2.1 =
      JValue.str "Invalid JSON response from analysis" ∧
    strContains "Invalid JSON response from analysis" "no" = false :=
  ⟨rfl, by decide⟩

/-- C3 (amended): applying the veracity parser to the unescaped-quote input
does not raise, but returns exactly the hard-failure default verdict; in
particular the repair layer fails to recover this input because the interior
quote is not preceded by `:` or `,`. -/
theorem c3_unescaped_quote_hard_default :
    parseVeracityResponse [] c3input = parseErrorVerdict ∧
    repairJsonStrings (braceExtract (cleanJsonResponse c3input)) =
      braceExtract (cleanJsonResponse c3input) :=
  ⟨rfl, rfl⟩

/-- C4: the parser is total (the embedding returns a verdict for every input
string by construction), and whenever the three recovery layers — direct
parse, brace-balanced extraction of the cleaned text, and string repair —
all fail to produce a parsable object, the result is exactly
`(Unverifiable, "Invalid JSON response from analysis", "Parse error", [])`. -/
theorem c4_hard_failure_default (cur : List Result) (txt : String)
    (h1 : pyJsonLoads txt = none)
    (h2 : pyJsonLoads (braceExtract (cleanJsonResponse txt)) = none)
    (h3 : pyJsonLoads (repairJsonStrings (braceExtract (cleanJsonResponse txt))) = none) :
    parseVeracityResponse cur txt = parseErrorVerdict := by
  simp only [parseVeracityResponse, h1, h2, h3]

theorem c4_hard_failure_witness :
    pyJsonLoads "hello" = none ∧
    pyJsonLoads (braceExtract (cleanJsonResponse "hello")) = none ∧
    pyJsonLoads (repairJsonStrings (braceExtract (cleanJsonResponse "hello"))) = none ∧
    parseVeracityResponse [] "hello" = parseErrorVerdict :=
  ⟨rfl, rfl, rfl, c4_hard_failure_default [] "hello" rfl rfl rfl⟩

/-- C5 (counterexample): with the evidence provider disabled but the LLM
service enabled, the verdict follows the model response — a parsable
response with status `Untruth` yields status `Untruth`, not `Unverifiable`,
so the claim as stated (quantified over every model response) is false. -/
theorem c5_evidence_disabled_follows_model :
    (analyzeVeracity true false (fun _ => []) (.ok c5resp)
      "The Berlin Wall fell on November 9, 1989." "en" []).1.1 = JValue.str "Untruth" ∧
    JValue.str "Untruth" ≠ JValue.str "Unverifiable" :=
  ⟨rfl, by simp⟩

/-- C5 (amended): it is the LLM service being disabled (`enabled = False`),
not the evidence provider, that forces the fixed default verdict: then for
every claim, language, search oracle and model response, `analyze_veracity`
returns status `Unverifiable`, the fixed default justification
`"Analysis not available"`, method `"Default method used"` and no sources,
leaving the buffer untouched. -/
theorem c5_service_disabled_default (webSearchEnabled : Bool)
    (searchFn : String → List Result) (modelResponse : Except Unit String)
    (claim lang : String) (st : List Result) :
    analyzeVeracity false webSearchEnabled searchFn modelResponse claim lang st =
      (defaultVeracityVerdict, st) := by
  simp [analyzeVeracity]

/-- C6 (counterexample): on the failure path the request-scoped evidence
buffer is NOT cleared: with a gathered result and a failing model call, the
buffer still holds that result when the default verdict is returned. -/
theorem c6_failure_path_keeps_buffer :
    (analyzeVeracity true true (fun _ => [c6item]) (.error ()) "Wall fell" "en" []).2 =
      [c6item] ∧
    [c6item] ≠ ([] : List Result) :=
  ⟨rfl, by simp⟩

/-- C6 (amended): the buffer is cleared before returning on the success path
only; on the failure (exception) path it is left exactly as the context
builder set it. -/
theorem c6_buffer_cleared_on_success_only (webSearchEnabled : Bool)
    (searchFn : String → List Result) (response : String)
    (claim lang : String) (st : List Result) :
    (analyzeVeracity true webSearchEnabled searchFn (.ok response) claim lang st).2 = [] ∧
    (analyzeVeracity true webSearchEnabled searchFn (.error ()) claim lang st).2 =
      (buildSearchContext (performWebSearches webSearchEnabled searchFn claim lang) lang).2 := by
  constructor <;> simp [analyzeVeracity]

/-- C7: for every claim and language the executed query sequence (the
derived queries with the literal claim inserted at position 0) is non-empty
and starts with the claim verbatim. -/
theorem c7_expansion_starts_with_claim (claim lang : String) :
    searchQueriesFor claim lang ≠ [] ∧
    (searchQueriesFor claim lang).head? = some claim := by
  simp [searchQueriesFor]

/-! Lemmas about the stable descending insertion sort used by the ranker. -/

theorem mem_insertByScoreDesc (claim : String) (x a : Result) (l : List Result) :
    a ∈ insertByScoreDesc claim x l ↔ a = x ∨ a ∈ l := by
  induction l with
  | nil => simp [insertByScoreDesc]
  | cons y ys ih =>
    simp only [insertByScoreDesc]
    split
    · simp [List.mem_cons]
    · simp [List.mem_cons, ih]
      tauto

theorem mem_foldl_insertByScoreDesc (claim : String) (l acc : List Result) (a : Result) :
    a ∈ l.foldl (fun acc x => insertByScoreDesc claim x acc) acc ↔ a ∈ acc ∨ a ∈ l := by
  induction l generalizing acc with
  | nil => simp
  | cons x xs ih =>
    rw [List.foldl_cons, ih]
    rw [mem_insertByScoreDesc]
    simp [List.mem_cons]
    tauto

theorem mem_sortByScoreDesc (claim : String) (l : List Result) (a : Result) :
    a ∈ sortByScoreDesc claim l ↔ a ∈ l := by
  unfold sortByScoreDesc
  rw [mem_foldl_insertByScoreDesc]
  simp

theorem pairwise_insertByScoreDesc (claim : String) (x : Result) (l : List Result)
    (h : l.Pairwise (fun a b => relevanceScore claim b ≤ relevanceScore claim a)) :
    (insertByScoreDesc claim x l).Pairwise
      (fun a b => relevanceScore claim b ≤ relevanceScore claim a) := by
  induction l with
  | nil => simp [insertByScoreDesc]
  | cons y ys ih =>
    obtain ⟨hy, hys⟩ := List.pairwise_cons.mp h
    simp only [insertByScoreDesc]
    split
    · refine List.pairwise_cons.mpr ⟨?_, h⟩
      intro b hb
      rcases List.mem_cons.mp hb with rfl | hb'
      · omega
      · have := hy b hb'
        omega
    · refine List.pairwise_cons.mpr ⟨?_, ih hys⟩
      intro b hb
      rcases (mem_insertByScoreDesc claim x b ys).mp hb with rfl | hb'
      · omega
      · exact hy b hb'

theorem pairwise_sortByScoreDesc (claim : String) (l : List Result) :
    (sortByScoreDesc claim l).Pairwise
      (fun a b => relevanceScore claim b ≤ relevanceScore claim a) := by
  suffices haux : ∀ acc : List Result,
      acc.Pairwise (fun a b => relevanceScore claim b ≤ relevanceScore claim a) →
      (l.foldl (fun acc x => insertByScoreDesc claim x acc) acc).Pairwise
        (fun a b => relevanceScore claim b ≤ relevanceScore claim a) by
    exact haux [] List.Pairwise.nil
  induction l with
  | nil => intro acc hacc; exact hacc
  | cons x xs ih =>
    intro acc hacc
    rw [List.foldl_cons]
    exact ih _ (pairwise_insertByScoreDesc claim x acc hacc)

theorem filter_insertByScoreDesc (claim : String) (s : Nat) (x : Result) (l : List Result)
    (h : l.Pairwise (fun a b => relevanceScore claim b ≤ relevanceScore claim a)) :
    (insertByScoreDesc claim x l).filter (fun r => relevanceScore claim r == s) =
      l.filter (fun r => relevanceScore claim r == s) ++
        (if relevanceScore claim x = s then [x] else []) := by
  induction l with
  | nil => by_cases hx : relevanceScore claim x = s <;> simp [insertByScoreDesc, hx]
  | cons y ys ih =>
    obtain ⟨hy, hys⟩ := List.pairwise_cons.mp h
    simp only [insertByScoreDesc]
    split
    · rename_i hcmp
      by_cases hx : relevanceScore claim x = s
      · have hnil : (y :: ys).filter (fun r => relevanceScore claim r == s) = [] := by
          rw [List.filter_eq_nil_iff]
          intro b hb
          rcases List.mem_cons.mp hb with rfl | hb'
          · simp only [beq_iff_eq]
            omega
          · have := hy b hb'
            simp only [beq_iff_eq]
            omega
        rw [List.filter_cons_of_pos (by simp [hx]), hnil]
        simp [hx]
      · rw [List.filter_cons_of_neg (by simp [hx])]
        simp [hx]
    · simp only [List.filter_cons, ih hys]
      split <;> simp

theorem filter_sortByScoreDesc (claim : String) (s : Nat) (l : List Result) :
    (sortByScoreDesc claim l).filter (fun r => relevanceScore claim r == s) =
      l.filter (fun r => relevanceScore claim r == s) := by
  suffices haux : ∀ acc : List Result,
      acc.Pairwise (fun a b => relevanceScore claim b ≤ relevanceScore claim a) →
      (l.foldl (fun acc x => insertByScoreDesc claim x acc) acc).filter
          (fun r => relevanceScore claim r == s) =
        acc.filter (fun r => relevanceScore claim r == s) ++
          l.filter (fun r => relevanceScore claim r == s) by
    have := haux [] List.Pairwise.nil
    simpa [sortByScoreDesc] using this
  induction l with
  | nil => intro acc hacc; simp
  | cons x xs ih =>
    intro acc hacc
    rw [List.foldl_cons, ih _ (pairwise_insertByScoreDesc claim x acc hacc),
      filter_insertByScoreDesc claim s x acc hacc, List.append_assoc]
    congr 1
    by_cases hx : relevanceScore claim x = s <;> simp [List.filter_cons, hx]

theorem pyStrip_length_le (t : String) : (pyStrip t).length ≤ t.length := by
  show (((t.toList.dropWhile pyIsSpace).reverse.dropWhile pyIsSpace).reverse).length
      ≤ t.toList.length
  rw [List.length_reverse]
  calc ((t.toList.dropWhile pyIsSpace).reverse.dropWhile pyIsSpace).length
      ≤ (t.toList.dropWhile pyIsSpace).reverse.length := (List.dropWhile_sublist _).length_le
    _ = (t.toList.dropWhile pyIsSpace).length := List.length_reverse _
    _ ≤ t.toList.length := (List.dropWhile_sublist _).length_le

/-- C8: the ranker returns at most `maxResults` items; every returned item
has snippet length ≥ 50 and url length ≥ 5; the output is sorted by
descending relevance score; and for every score value the returned items
with that score form a prefix of the gate-passing input items with that
score — i.e. equal-score items keep their relative input order. -/
theorem c8_ranker_contract (results : List Result) (claim : String) (maxResults : Nat) :
    (filterSearchResults results claim maxResults).length ≤ maxResults ∧
    (∀ r ∈ filterSearchResults results claim maxResults,
      MIN_SNIPPET_LENGTH ≤ r.snippet.length ∧ MIN_URL_LENGTH ≤ r.url.length) ∧
    (filterSearchResults results claim maxResults).Pairwise
      (fun a b => relevanceScore claim b ≤ relevanceScore claim a) ∧
    (∀ s : Nat, ∃ t,
      (filterSearchResults results claim maxResults).filter
          (fun r => relevanceScore claim r == s) ++ t =
        (results.filter (keepResult claim)).filter
          (fun r => relevanceScore claim r == s)) := by
  unfold filterSearchResults
  refine ⟨List.length_take_le _ _, ?_, ?_, ?_⟩
  · intro r hr
    have hr1 : r ∈ sortByScoreDesc claim (results.filter (keepResult claim)) :=
      List.take_subset _ _ hr
    have hr2 : r ∈ results.filter (keepResult claim) :=
      (mem_sortByScoreDesc claim _ r).mp hr1
    have hk : keepResult claim r = true := List.of_mem_filter hr2
    unfold keepResult at hk
    simp only [Bool.and_eq_true, decide_eq_true_eq, ne_eq] at hk
    obtain ⟨⟨hsn, _, hurl⟩, _⟩ := hk
    exact ⟨le_trans hsn (pyStrip_length_le _), le_trans hurl (pyStrip_length_le _)⟩
  · exact List.Pairwise.sublist (List.take_sublist _ _) (pairwise_sortByScoreDesc claim _)
  · intro s
    refine ⟨((sortByScoreDesc claim (results.filter (keepResult claim))).drop maxResults).filter
      (fun r => relevanceScore claim r == s), ?_⟩
    rw [← List.filter_append, List.take_append_drop]
    exact filter_sortByScoreDesc claim s _

theorem c8_ranker_contract_witness :
    MIN_SNIPPET_LENGTH ≤ c8item.snippet.length ∧ MIN_URL_LENGTH ≤ c8item.url.length :=
  (c8_ranker_contract [c8item] "Wall fell" 5).2.1 c8item
    (by rw [show filterSearchResults [c8item] "Wall fell" 5 = [c8item] from rfl]
        exact List.mem_singleton.mpr rfl)

/-- C9: with non-empty gathered evidence and an empty model source list,
reconciliation returns between 1 and `len(evidence)` sources: either the
keyword-matched evidence items (≥ 2 shared justification keywords), or —
when none matches — the first 2 gathered items unconditionally. -/
theorem c9_reconciliation_bounds (justification : String) (cur : List Result)
    (h : cur ≠ []) :
    1 ≤ (autoMapSourcesFromResults justification cur).length ∧
    (autoMapSourcesFromResults justification cur).length ≤ cur.length ∧
    ((autoMapMatched justification cur ≠ [] ∧
      autoMapSourcesFromResults justification cur = autoMapMatched justification cur) ∨
     (autoMapMatched justification cur = [] ∧
      autoMapSourcesFromResults justification cur =
        (cur.take AUTO_MAP_FALLBACK_SOURCES).map autoMapNormalize)) := by
  obtain ⟨a, l, rfl⟩ : ∃ a l, cur = a :: l := by
    cases cur with
    | nil => exact absurd rfl h
    | cons a l => exact ⟨a, l, rfl⟩
  by_cases hm : (autoMapMatched justification (a :: l)).isEmpty
  · have hm' : autoMapMatched justification (a :: l) = [] := List.isEmpty_iff.mp hm
    have hout : autoMapSourcesFromResults justification (a :: l) =
        ((a :: l).take AUTO_MAP_FALLBACK_SOURCES).map autoMapNormalize := by
      unfold autoMapSourcesFromResults
      simp [hm]
    rw [hout]
    refine ⟨?_, ?_, Or.inr ⟨hm', rfl⟩⟩
    · rw [List.length_map, List.length_take]
      simp only [AUTO_MAP_FALLBACK_SOURCES, List.length_cons]
      omega
    · rw [List.length_map, List.length_take]
      omega
  · have hm' : autoMapMatched justification (a :: l) ≠ [] := by
      intro hnil; exact hm (by rw [hnil]; rfl)
    have hout : autoMapSourcesFromResults justification (a :: l) =
        autoMapMatched justification (a :: l) := by
      unfold autoMapSourcesFromResults
      simp [hm]
    rw [hout]
    refine ⟨?_, ?_, Or.inl ⟨hm', rfl⟩⟩
    · have hpos : 0 < (autoMapMatched justification (a :: l)).length :=
        List.length_pos.mpr hm'
      omega
    · unfold autoMapMatched
      exact List.length_filterMap_le _ _

theorem c9_reconciliation_witness :
    1 ≤ (autoMapSourcesFromResults "" [c9item]).length ∧
    (autoMapSourcesFromResults "" [c9item]).length ≤ [c9item].length ∧
    ((autoMapMatched "" [c9item] ≠ [] ∧
      autoMapSourcesFromResults "" [c9item] = autoMapMatched "" [c9item]) ∨
     (autoMapMatched "" [c9item] = [] ∧
      autoMapSourcesFromResults "" [c9item] =
        ([c9item].take AUTO_MAP_FALLBACK_SOURCES).map autoMapNormalize)) :=
  c9_reconciliation_bounds "" [c9item] (by simp)

/-- C10: the literal claim is prepended after the derived queries were
deduplicated and length-filtered, so the executed list starts with the claim
(no matter how short the claim is), and when the derived queries already
contain the claim text the full executed list holds it twice. -/
theorem c10_claim_prepended_after_dedup (claim lang : String) :
    ((searchQueriesFor claim lang).take MAX_SEARCH_QUERIES).head? = some claim ∧
    (claim ∈ extractAllSearchQueries claim lang →
      2 ≤ (searchQueriesFor claim lang).count claim) := by
  constructor
  · show ((claim :: extractAllSearchQueries claim lang).take 8).head? = some claim
    rfl
  · intro h
    show 2 ≤ ((claim :: extractAllSearchQueries claim lang).count claim)
    rw [List.count_cons_self]
    have : 0 < (extractAllSearchQueries claim lang).count claim :=
      List.count_pos_iff.mpr h
    omega

theorem c10_duplicate_claim_witness :
    "Merkel" ∈ extractAllSearchQueries "Merkel" "en" ∧
    2 ≤ (searchQueriesFor "Merkel" "en").count "Merkel" :=
  ⟨by decide, (c10_claim_prepended_after_dedup "Merkel" "en").2 (by decide)⟩

end UniteAI
